import Mathlib

/-!
 Shallow embedding of the OpenFARS idea-lifecycle core
(`src/config.py`, `src/idea_evaluator.py`, `src/multi_reviewer.py`,
`src/agent.py`, `src/deepseek_client.py`) and proofs about the frozen
claims of its specification.

Python floats are modelled as rationals (`ℚ`); Python strings as Lean
`String` / `List Char`; a Python exception raised by the DeepSeek client
is modelled as the `Except ProviderError` monad, written out as explicit
`match`es so that propagation mirrors the source's `raise` semantics.
-/

namespace OpenFARS

/-- The five fixed evaluation dimensions (keys of `EVAL_WEIGHTS` and
`EVAL_DIMENSION_THRESHOLDS` in `src/config.py`). -/
inductive Dimension
  | novelty
  | feasibility
  | significance
  | clarity
  | relevance
deriving DecidableEq, Repr, Fintype

/-- Insertion order of the dimension dictionaries in `src/config.py`
(Python dicts iterate in insertion order). -/
def dimensionOrder : List Dimension :=
  [.novelty, .feasibility, .significance, .clarity, .relevance]

/-- `EVAL_WEIGHTS` from `src/config.py`. -/
def EVAL_WEIGHTS : Dimension → ℚ
  | .novelty => 25/100
  | .feasibility => 20/100
  | .significance => 25/100
  | .clarity => 15/100
  | .relevance => 15/100

/-- `EVALUATION_THRESHOLD` from `src/config.py`. -/
def EVALUATION_THRESHOLD : ℚ := 8

/-- `EVAL_DIMENSION_THRESHOLDS` from `src/config.py`. -/
def EVAL_DIMENSION_THRESHOLDS : Dimension → ℚ
  | .novelty => 9
  | .feasibility => 9
  | .significance => 8
  | .clarity => 8
  | .relevance => 8

/-- `EvaluationResult` from `src/idea_evaluator.py` (the fields the
lifecycle logic consumes; the auxiliary `strengths` / `weaknesses` /
`suggestions` lists are not read by any control flow). -/
structure EvaluationResult where
  novelty : ℚ := 0
  feasibility : ℚ := 0
  significance : ℚ := 0
  clarity : ℚ := 0
  relevance : ℚ := 0
  weighted_score : ℚ := 0
  raw_feedback : String := ""
deriving DecidableEq, Repr

/-- `getattr(self, dim, 0.0)` for a dimension key, as used by
`EvaluationResult.failed_dimensions`. -/
def EvaluationResult.dimScore (r : EvaluationResult) : Dimension → ℚ
  | .novelty => r.novelty
  | .feasibility => r.feasibility
  | .significance => r.significance
  | .clarity => r.clarity
  | .relevance => r.relevance

/-- `EvaluationResult.failed_dimensions` from `src/idea_evaluator.py`:
the dimensions whose score is strictly below their threshold, paired
with (score, threshold), in the iteration order of
`EVAL_DIMENSION_THRESHOLDS`. -/
def EvaluationResult.failed_dimensions (r : EvaluationResult) :
    List (Dimension × ℚ × ℚ) :=
  dimensionOrder.filterMap (fun d =>
    if r.dimScore d < EVAL_DIMENSION_THRESHOLDS d then
      some (d, r.dimScore d, EVAL_DIMENSION_THRESHOLDS d)
    else none)

/-- `EvaluationResult.passes_threshold` from `src/idea_evaluator.py`:
fail when the weighted composite is below `EVALUATION_THRESHOLD`,
otherwise pass exactly when no dimension failed. -/
def EvaluationResult.passes_threshold (r : EvaluationResult) : Bool :=
  if r.weighted_score < EVALUATION_THRESHOLD then false
  else r.failed_dimensions.length == 0

/-!
 Score extraction.

 The method observed in the source, `IdeaEvaluator._parse_evaluation`, extracts each dimension score with
`re.search(r"<label>.*?(\d+(?:\.\d+)?)\s*/\s*10", raw_feedback)` and
`float(match.group(1))`.  The matcher below implements exactly that
regular expression (no `re.DOTALL`, so `.` does not match a newline,
while `\s` does): leftmost match, lazy `.*?`, greedy `\d+`.  For this
pattern the greedy/backtracking behaviour is deterministic — after a
maximal digit run, the next character is not a digit, so shrinking
`\d+` can never let `(?:\.\d+)?` or `\s*/` match.
-/

/-- Python `\s` on the whitespace characters that occur in model text. -/
def pyWhitespace (c : Char) : Bool :=
  c = ' ' || c = '\t' || c = '\n' || c = '\r' ||
  c = Char.ofNat 11 || c = Char.ofNat 12

/-- Python `\d` (ASCII digits). -/
def pyDigit (c : Char) : Bool := '0' ≤ c && c ≤ '9'

/-- Maximal digit run at the head of the text, with the remainder
(the greedy `\d+` / `\d*` step). -/
def digitRun : List Char → List Char × List Char
  | [] => ([], [])
  | c :: cs =>
    if pyDigit c then
      let (run, rest) := digitRun cs
      (c :: run, rest)
    else ([], c :: cs)

/-- Greedy `\s*` (deterministic here because the character required
after it, `/` or `1`, is never whitespace). -/
def skipWhitespace : List Char → List Char
  | [] => []
  | c :: cs => if pyWhitespace c then skipWhitespace cs else c :: cs

/-- Matches `\s*/\s*10` at the head of the text (the tail of the score
pattern; the overall pattern is unanchored, so anything may follow). -/
def matchSlash10 (s : List Char) : Bool :=
  match skipWhitespace s with
  | '/' :: rest =>
    match skipWhitespace rest with
    | '1' :: '0' :: _ => true
    | _ => false
  | _ => false

/-- Matches `(\d+(?:\.\d+)?)\s*/\s*10` at the head of the text and
returns the captured group as (integer digits, optional fractional
digits).  Mirrors the regex backtracking order: greedy `\d+`, then the
optional fractional part preferred present, then the tail. -/
def matchScoreNumber (s : List Char) : Option (List Char × Option (List Char)) :=
  let (run1, rest1) := digitRun s
  if run1.isEmpty then none
  else
    match rest1 with
    | '.' :: rest2 =>
      let (run2, rest3) := digitRun rest2
      if !run2.isEmpty && matchSlash10 rest3 then some (run1, some run2)
      else if matchSlash10 rest1 then some (run1, none)
      else none
    | _ => if matchSlash10 rest1 then some (run1, none) else none

/-- The lazy `.*?` step: starting right after the dimension label, try
the number pattern at each successive offset, consuming only
non-newline characters (`.` without `re.DOTALL`). -/
def lazyScanScore : List Char → Option (List Char × Option (List Char))
  | [] => none
  | c :: rest =>
    match matchScoreNumber (c :: rest) with
    | some cap => some cap
    | none => if c = '\n' then none else lazyScanScore rest

/-- `re.search` for the full pattern `<label>.*?(\d+(?:\.\d+)?)\s*/\s*10`:
every match starts at an occurrence of the literal label, and the
leftmost match is found by trying label occurrences left to right. -/
def searchScorePattern (label : List Char) : List Char → Option (List Char × Option (List Char))
  | [] => none
  | c :: rest =>
    if label.isPrefixOf (c :: rest) then
      match lazyScanScore ((c :: rest).drop label.length) with
      | some cap => some cap
      | none => searchScorePattern label rest
    else searchScorePattern label rest

/-- Value of a digit run (`int(...)` on the digit string). -/
def natOfDigits (ds : List Char) : Nat :=
  ds.foldl (fun n c => 10 * n + (c.toNat - 48)) 0

/-- `float(match.group(1))`: value of the captured decimal literal. -/
def scoreValue : List Char × Option (List Char) → ℚ
  | (run1, none) => natOfDigits run1
  | (run1, some run2) => natOfDigits run1 + (natOfDigits run2 : ℚ) / (10 : ℚ) ^ run2.length

/-- The locale-specific label of each dimension's pattern in
`score_patterns` (`src/idea_evaluator.py`). -/
def scoreLabel : Dimension → List Char
  | .novelty => "新颖性".toList
  | .feasibility => "可行性".toList
  | .significance => "重要性".toList
  | .clarity => "清晰度".toList
  | .relevance => "相关性".toList

/-- One dimension of the `for attr, pattern in score_patterns.items()`
loop: the matched value, or the `EvaluationResult.__init__` default 0.0
when `re.search` finds no match. -/
def extractScore (label : List Char) (text : List Char) : ℚ :=
  match searchScorePattern label text with
  | some cap => scoreValue cap
  | none => 0

/-- The Scorer's weighted-sum expression from `_parse_evaluation`,
with the weight mapping as an input (the source instantiates it at the
fixed `EVAL_WEIGHTS`). -/
def compositeScore (w : Dimension → ℚ) (s : Dimension → ℚ) : ℚ :=
  s .novelty * w .novelty
  + s .feasibility * w .feasibility
  + s .significance * w .significance
  + s .clarity * w .clarity
  + s .relevance * w .relevance

/-- `IdeaEvaluator._parse_evaluation` (the score fields and composite;
the strengths/weaknesses/suggestions section lists are not consumed by
any control flow).  Total: extraction never fails, every dimension gets
a value. -/
def parse_evaluation (raw_feedback : String) : EvaluationResult :=
  let t := raw_feedback.toList
  let n := extractScore (scoreLabel .novelty) t
  let fe := extractScore (scoreLabel .feasibility) t
  let si := extractScore (scoreLabel .significance) t
  let cl := extractScore (scoreLabel .clarity) t
  let re := extractScore (scoreLabel .relevance) t
  { novelty := n
    feasibility := fe
    significance := si
    clarity := cl
    relevance := re
    weighted_score :=
      n * EVAL_WEIGHTS .novelty
      + fe * EVAL_WEIGHTS .feasibility
      + si * EVAL_WEIGHTS .significance
      + cl * EVAL_WEIGHTS .clarity
      + re * EVAL_WEIGHTS .relevance
    raw_feedback := raw_feedback }

/-- `MultiReviewer.evaluate` (`src/multi_reviewer.py`): the model is an
oracle giving the text of the n-th chat call of the evaluation — call 0
is reviewer A (critic persona), call 1 is reviewer B (innovator
persona), call 2 is the meta-reviewer arbitration.  Scores are parsed
from the arbitration text; the stored commentary concatenates all
three texts under the source's labeled headers. -/
def multiReviewerEvaluate (model : Nat → String) : EvaluationResult :=
  let review_a := model 0
  let review_b := model 1
  let final_decision := model 2
  let result := parse_evaluation final_decision
  { result with raw_feedback :=
      "### Reviewer A (保守派) 意见\n" ++ review_a ++
      "\n\n### Reviewer B (激进派) 意见\n" ++ review_b ++
      "\n\n### 领域主席 (Meta Reviewer) 决议\n" ++ final_decision }

/-!
 Idea lifecycle, from `src/agent.py`.

 The client method `DeepSeekClient.chat` wraps any API failure in a `RuntimeError` and
raises; `src/agent.py` contains no `try`/`except`, so each model call
is modelled as `Except ProviderError`, and the explicit `match`es below
reproduce Python's exception propagation.
-/

/-- The `RuntimeError("DeepSeek API 调用失败: ...")` raised by
`DeepSeekClient.chat` (`src/deepseek_client.py`). -/
structure ProviderError where
  msg : String
deriving DecidableEq, Repr

/-- One entry of `idea_record["evaluations"]`
(`ResearchIdeaAgent._process_single_idea`). -/
structure EvalEntry where
  round : Nat
  score : ℚ
  dimension_scores : List (Dimension × ℚ)
  failed_dimensions : List Dimension
  feedback : String
deriving DecidableEq, Repr

/-- One entry of `idea_record["refinements"]`. -/
structure RefinementEntry where
  round : Nat
  content : String
deriving DecidableEq, Repr

/-- The `idea_record` dict built by
`ResearchIdeaAgent._process_single_idea`. -/
structure IdeaRecord where
  original : String
  current : String
  evaluations : List EvalEntry
  refinements : List RefinementEntry
  final_score : ℚ
  rounds_used : Nat
deriving DecidableEq, Repr

/-- The evaluation-history dict appended each round in
`_process_single_idea`. -/
def mkEvalEntry (roundNum : Nat) (res : EvaluationResult) : EvalEntry :=
  { round := roundNum
    score := res.weighted_score
    dimension_scores := dimensionOrder.map (fun d => (d, res.dimScore d))
    failed_dimensions := res.failed_dimensions.map Prod.fst
    feedback := res.raw_feedback }

/-- The `for round_num in range(1, max_rounds + 1)` loop of
`_process_single_idea`, on fuel `roundsLeft` with
`roundNum + roundsLeft = maxRounds + 1`.  The evaluator oracle is
indexed by round number (the stateful `MultiReviewer` may answer
differently on each call).  It returns the loop's final
`current_idea` together with the record. -/
def processRounds
    (evaluator : Nat → String → Except ProviderError EvaluationResult)
    (refiner : String → String → Except ProviderError String)
    (maxRounds : Nat) :
    Nat → Nat → String → IdeaRecord → Except ProviderError (String × IdeaRecord)
  | 0, _, current, record => .ok (current, record)
  | roundsLeft + 1, roundNum, current, record =>
    match evaluator roundNum current with
    | .error e => .error e
    | .ok evalResult =>
      let record := { record with
        evaluations := record.evaluations ++ [mkEvalEntry roundNum evalResult]
        final_score := evalResult.weighted_score
        rounds_used := roundNum }
      if evalResult.passes_threshold then .ok (current, record)
      else if roundNum < maxRounds then
        match refiner current evalResult.raw_feedback with
        | .error e => .error e
        | .ok refined =>
          processRounds evaluator refiner maxRounds roundsLeft (roundNum + 1) refined
            { record with refinements := record.refinements ++ [⟨roundNum, refined⟩] }
      else .ok (current, record)

/-- `ResearchIdeaAgent._process_single_idea`: initial record, the
evaluate/refine loop, then `idea_record["current"] = current_idea`. -/
def process_single_idea
    (evaluator : Nat → String → Except ProviderError EvaluationResult)
    (refiner : String → String → Except ProviderError String)
    (ideaContent : String) (maxRounds : Nat) : Except ProviderError IdeaRecord :=
  match processRounds evaluator refiner maxRounds maxRounds 1 ideaContent
      { original := ideaContent, current := ideaContent, evaluations := []
        refinements := [], final_score := 0, rounds_used := 0 } with
  | .error e => .error e
  | .ok (current, record) => .ok { record with current := current }

/-- The `for idx, idea in enumerate(individual_ideas)` loop of
`ResearchIdeaAgent.run`: candidates are processed in order and an
uncaught exception propagates out of the loop (there is no
`try`/`except` in `run`).  The oracles are additionally indexed by the
candidate position `idx`. -/
def processBatch
    (evaluators : Nat → Nat → String → Except ProviderError EvaluationResult)
    (refiners : Nat → String → String → Except ProviderError String)
    (maxRounds : Nat) : Nat → List String → Except ProviderError (List IdeaRecord)
  | _, [] => .ok []
  | idx, idea :: rest =>
    match process_single_idea (evaluators idx) (refiners idx) idea maxRounds with
    | .error e => .error e
    | .ok record =>
      match processBatch evaluators refiners maxRounds (idx + 1) rest with
      | .error e => .error e
      | .ok records => .ok (record :: records)

/-- `ResearchIdeaAgent._select_best_idea`: `None` on an empty list,
otherwise Python's `max(ideas, key=lambda x: x["final_score"])`, which
keeps the first-seen element on ties (it replaces the running best only
on a strictly greater key). -/
def select_best_idea (ideas : List IdeaRecord) : Option IdeaRecord :=
  match ideas with
  | [] => none
  | x :: xs =>
    some (xs.foldl (fun best y => if best.final_score < y.final_score then y else best) x)

/-- An evaluator oracle that never raises. -/
def pureEvaluator (ev : Nat → String → EvaluationResult) :
    Nat → String → Except ProviderError EvaluationResult :=
  fun r t => .ok (ev r t)

/-- A refiner oracle that never raises. -/
def pureRefiner (rf : String → String → String) :
    String → String → Except ProviderError String :=
  fun t f => .ok (rf t f)

/-- The candidate text after `k` further refinement steps starting at
round `roundNum` with text `current`: each step feeds the current
verdict's raw commentary to the refiner (used to state which text the
loop evaluates in later rounds). -/
def refinedText (ev : Nat → String → EvaluationResult) (rf : String → String → String) :
    String → Nat → Nat → String
  | current, _, 0 => current
  | current, roundNum, k + 1 =>
    refinedText ev rf (rf current (ev roundNum current).raw_feedback) (roundNum + 1) k

/-!
 Spec-side vocabulary and concrete inputs for the claims.
-/

/-- Modelled from the spec (§4.2/§8): a score mapping with every value
in [0,10]. -/
def scoresInRange (s : Dimension → ℚ) : Prop := ∀ d, 0 ≤ s d ∧ s d ≤ 10

/-- Modelled from the spec (§4.2): the sum of the five dimension
weights (required to be 1.0). -/
def weightSum (w : Dimension → ℚ) : ℚ :=
  w .novelty + w .feasibility + w .significance + w .clarity + w .relevance

/-- Spec §8 concrete scenario scores {9.5, 9.0, 8.5, 8.0, 8.0}. -/
def specScenarioScores : Dimension → ℚ
  | .novelty => 95/10
  | .feasibility => 9
  | .significance => 85/10
  | .clarity => 8
  | .relevance => 8

/-- A verdict with the spec §8 passing-scenario scores (composite 8.7). -/
def resultPassing : EvaluationResult :=
  { novelty := 95/10, feasibility := 9, significance := 85/10, clarity := 8
    relevance := 8, weighted_score := 87/10 }

/-- A verdict with a near-perfect composite but relevance 7.9 below its
threshold (spec §8 conjunctive-gate scenario). -/
def resultWeakDim : EvaluationResult :=
  { novelty := 10, feasibility := 10, significance := 10, clarity := 10
    relevance := 79/10, weighted_score := 9815/1000 }

/-- Weights that sum to 1.0 but are not all nonnegative. -/
def signedWeights : Dimension → ℚ
  | .novelty => 2
  | .feasibility => -1
  | _ => 0

/-- In-range scores witnessing that `signedWeights` breaks the
composite bound. -/
def cornerScores : Dimension → ℚ
  | .novelty => 10
  | _ => 0

/-- A stub verdict that always fails (all scores and the composite at
their 0.0 defaults). -/
def alwaysFailEv : Nat → String → EvaluationResult := fun _ _ => {}

/-- A deterministic refiner stub. -/
def markRefiner : String → String → String := fun t _ => t ++ "*"

/-- A passing verdict stub (every dimension at its threshold,
composite 8.45 ≥ 8). -/
def resultAtThresholds : EvaluationResult :=
  { novelty := 9, feasibility := 9, significance := 8, clarity := 8
    relevance := 8, weighted_score := 845/100, raw_feedback := "pass" }

/-- A review-panel stub that fails on round 1 and passes on round 2. -/
def passOnRound2Ev : Nat → String → EvaluationResult :=
  fun r _ => if r = 2 then resultAtThresholds else {}

/-- The provider failure raised by `DeepSeekClient.chat` on a transport
error. -/
def providerFailure : ProviderError := ⟨"DeepSeek API 调用失败: connection error"⟩

/-- Per-candidate evaluator oracles where candidate 0's first model
call raises a provider error and every other candidate passes
immediately. -/
def evFailsFirstCandidate : Nat → Nat → String → Except ProviderError EvaluationResult :=
  fun idx _ _ => if idx = 0 then .error providerFailure else .ok resultAtThresholds

/-- Per-candidate refiner oracles that never raise. -/
def rfNeverFails : Nat → String → String → Except ProviderError String :=
  fun _ t _ => .ok t

/-- A record with only a final composite score (as far as selection is
concerned). -/
def recordWithScore (s : ℚ) (name : String) : IdeaRecord :=
  { original := name, current := name, evaluations := [], refinements := []
    final_score := s, rounds_used := 1 }

/-- The spec §8 selection scenario: composite scores [6.1, 8.9, 8.9]. -/
def tieRecords : List IdeaRecord :=
  [recordWithScore (61/10) "a", recordWithScore (89/10) "b", recordWithScore (89/10) "c"]

/-- A model oracle for the multi-reviewer witness. -/
def panelOracle : Nat → String :=
  fun n => if n = 0 then "review A text" else if n = 1 then "review B text"
           else "新颖性 9/10"

/-- A second oracle differing from `panelOracle` only in the two
initial reviewer texts (call 0 and call 1), not in the arbitration. -/
def panelOracleAltReviews : Nat → String :=
  fun n => if n = 0 then "other A" else if n = 1 then "other B"
           else "新颖性 9/10"

/-!
 Theorems about the claims.
-/

/-- Every dimension occurs in the threshold dictionary's iteration
order. -/
lemma mem_dimensionOrder (d : Dimension) : d ∈ dimensionOrder := by
  cases d <;> simp [dimensionOrder]

/-- The failed-dimensions list is empty exactly when every dimension
meets its own threshold. -/
lemma failed_dimensions_eq_nil_iff (r : EvaluationResult) :
    r.failed_dimensions = [] ↔ ∀ d, EVAL_DIMENSION_THRESHOLDS d ≤ r.dimScore d := by
  unfold EvaluationResult.failed_dimensions
  rw [List.filterMap_eq_nil_iff]
  constructor
  · intro h d
    by_contra hlt
    push_neg at hlt
    have hd := h d (mem_dimensionOrder d)
    rw [if_pos hlt] at hd
    exact Option.some_ne_none _ hd
  · intro h d _
    rw [if_neg (not_lt.mpr (h d))]

/-- The pass flag is true exactly when the composite meets the
composite threshold and no dimension failed. -/
lemma passes_threshold_true_iff (r : EvaluationResult) :
    r.passes_threshold = true ↔
      (EVALUATION_THRESHOLD ≤ r.weighted_score ∧ r.failed_dimensions = []) := by
  unfold EvaluationResult.passes_threshold
  split_ifs with h
  · simp only [Bool.false_eq_true, false_iff, not_and]
    intro h1
    exact absurd h (not_lt.mpr h1)
  · simp [beq_iff_eq, List.length_eq_zero, not_lt.mp h]

/-- C1: acceptance is conjunctive — `passes_threshold` is true iff the
weighted composite is at least `EVALUATION_THRESHOLD` and the set of
failed dimensions (those strictly below their per-dimension threshold)
is empty; any single dimension below its threshold forces the verdict
to fail regardless of the composite. -/
theorem passes_threshold_conjunctive :
    (∀ r : EvaluationResult,
      r.passes_threshold = true ↔
        (EVALUATION_THRESHOLD ≤ r.weighted_score ∧ r.failed_dimensions = [])) ∧
    (∀ r : EvaluationResult,
      r.failed_dimensions = [] ↔ ∀ d, EVAL_DIMENSION_THRESHOLDS d ≤ r.dimScore d) ∧
    (∀ (r : EvaluationResult) (d : Dimension),
      r.dimScore d < EVAL_DIMENSION_THRESHOLDS d → r.passes_threshold = false) := by
  refine ⟨passes_threshold_true_iff, failed_dimensions_eq_nil_iff, ?_⟩
  intro r d hd
  cases hp : r.passes_threshold with
  | false => rfl
  | true =>
    have h2 := ((passes_threshold_true_iff r).mp hp).2
    have h3 := (failed_dimensions_eq_nil_iff r).mp h2 d
    exact absurd hd (not_lt.mpr h3)

/-- Witness for C1: the spec §8 scenarios — composite 8.7 with all
dimensions at/above threshold passes; composite 9.815 with relevance
7.9 < 8 fails. -/
theorem passes_threshold_conjunctive_witness :
    resultPassing.passes_threshold = true ∧ resultWeakDim.passes_threshold = false := by
  constructor
  · refine (passes_threshold_conjunctive.1 resultPassing).mpr
      ⟨by norm_num [resultPassing, EVALUATION_THRESHOLD],
       (passes_threshold_conjunctive.2.1 resultPassing).mpr ?_⟩
    intro d
    cases d <;>
      norm_num [resultPassing, EvaluationResult.dimScore, EVAL_DIMENSION_THRESHOLDS]
  · exact passes_threshold_conjunctive.2.2 resultWeakDim Dimension.relevance
      (by norm_num [resultWeakDim, EvaluationResult.dimScore, EVAL_DIMENSION_THRESHOLDS])

/-- The composite computed by `parse_evaluation` is the Scorer's
weighted sum of the extracted dimension scores at the configured
weights. -/
lemma parse_evaluation_weighted (text : String) :
    (parse_evaluation text).weighted_score =
      compositeScore EVAL_WEIGHTS (parse_evaluation text).dimScore := rfl

/-- C6: score extraction is total and fail-closed — for every input
text it returns a value for each of the five dimensions (the mapping is
complete by construction, no exception path exists), and every
dimension whose `<label> … <number>/10` pattern does not occur in the
text gets the default 0.0. -/
theorem extraction_total_fail_closed :
    ∀ (text : String) (d : Dimension),
      (parse_evaluation text).dimScore d = extractScore (scoreLabel d) text.toList ∧
      (searchScorePattern (scoreLabel d) text.toList = none →
        (parse_evaluation text).dimScore d = 0) := by
  intro text d
  have h1 : (parse_evaluation text).dimScore d = extractScore (scoreLabel d) text.toList := by
    cases d <;> rfl
  refine ⟨h1, fun h => ?_⟩
  rw [h1]
  unfold extractScore
  rw [h]

/-- Witness for C6: on text containing no score pattern at all, the
novelty dimension extracts as 0.0 (and no error is raised — the
function returns a value). -/
theorem extraction_total_fail_closed_witness :
    searchScorePattern (scoreLabel Dimension.novelty) ("hello").toList = none ∧
    (parse_evaluation ("hello")).dimScore Dimension.novelty = 0 :=
  ⟨by decide, (extraction_total_fail_closed ("hello") Dimension.novelty).2 (by decide)⟩

/-- C10: extracted scores are not clamped to [0,10] — the literal first
number after the label is returned, so text containing a score above 10
(here 新颖性 15/10, and 新颖性 99/10) yields a dimension score above 10
and a weighted composite above 10. -/
theorem extraction_unclamped :
    (parse_evaluation ("新颖性 15/10")).novelty = 15 ∧
    10 < (parse_evaluation ("新颖性 99/10")).novelty ∧
    10 < (parse_evaluation ("新颖性 99/10")).weighted_score := by
  refine ⟨by decide, by decide, ?_⟩
  have hn : (parse_evaluation ("新颖性 99/10")).novelty = 99 := by decide
  have hf : (parse_evaluation ("新颖性 99/10")).feasibility = 0 := by decide
  have hs : (parse_evaluation ("新颖性 99/10")).significance = 0 := by decide
  have hc : (parse_evaluation ("新颖性 99/10")).clarity = 0 := by decide
  have hr : (parse_evaluation ("新颖性 99/10")).relevance = 0 := by decide
  rw [parse_evaluation_weighted]
  unfold compositeScore EvaluationResult.dimScore
  rw [hn, hf, hs, hc, hr]
  norm_num [EVAL_WEIGHTS]

/-- C9: the panel verdict's dimension scores (and composite) are
extracted from the arbitration text (call 2) only — two runs whose
arbitration texts agree produce identical scores no matter what the two
initial reviewer texts were — and the stored commentary concatenates
the three texts under the source's labeled headers in the fixed order
reviewer A, reviewer B, arbitration. -/
theorem multi_reviewer_scores_from_arbitration :
    ∀ model model' : Nat → String,
      (∀ d, (multiReviewerEvaluate model).dimScore d =
        (parse_evaluation (model 2)).dimScore d) ∧
      (multiReviewerEvaluate model).weighted_score =
        (parse_evaluation (model 2)).weighted_score ∧
      (model 2 = model' 2 →
        (∀ d, (multiReviewerEvaluate model).dimScore d =
          (multiReviewerEvaluate model').dimScore d) ∧
        (multiReviewerEvaluate model).weighted_score =
          (multiReviewerEvaluate model').weighted_score) ∧
      (multiReviewerEvaluate model).raw_feedback =
        "### Reviewer A (保守派) 意见\n" ++ model 0 ++
        "\n\n### Reviewer B (激进派) 意见\n" ++ model 1 ++
        "\n\n### 领域主席 (Meta Reviewer) 决议\n" ++ model 2 := by
  intro model model'
  have hdim : ∀ (m : Nat → String) (d : Dimension),
      (multiReviewerEvaluate m).dimScore d = (parse_evaluation (m 2)).dimScore d := by
    intro m d
    cases d <;> rfl
  refine ⟨hdim model, rfl, fun h => ⟨fun d => ?_, ?_⟩, rfl⟩
  · rw [hdim model d, hdim model' d, h]
  · show (parse_evaluation (model 2)).weighted_score =
      (parse_evaluation (model' 2)).weighted_score
    rw [h]

/-- Witness for C9: two oracles differing in both initial reviewer
texts but agreeing on the arbitration text give the same novelty
score. -/
theorem multi_reviewer_scores_from_arbitration_witness :
    panelOracle 0 ≠ panelOracleAltReviews 0 ∧
    (multiReviewerEvaluate panelOracle).dimScore Dimension.novelty =
      (multiReviewerEvaluate panelOracleAltReviews).dimScore Dimension.novelty :=
  ⟨by decide,
   ((multi_reviewer_scores_from_arbitration panelOracle panelOracleAltReviews).2.2.1
      rfl).1 Dimension.novelty⟩

/-- Counterexample for C8 as stated: a weight mapping summing to 1.0
(novelty 2, feasibility −1, others 0) together with in-range scores
(novelty 10, others 0) makes the weighted composite 20, outside
[0,10] — summing to 1.0 alone does not bound the composite. -/
theorem composite_bound_fails_for_signed_weights :
    weightSum signedWeights = 1 ∧ scoresInRange cornerScores ∧
    ¬compositeScore signedWeights cornerScores ≤ 10 := by
  refine ⟨by norm_num [weightSum, signedWeights], ?_, ?_⟩
  · intro d
    cases d <;> norm_num [cornerScores]
  · norm_num [compositeScore, signedWeights, cornerScores]

/-- C8 amended: with the nonnegativity the code's fixed configuration
satisfies, the bound holds — for every weight mapping with nonnegative
weights summing to 1.0 and every score mapping with values in [0,10],
the weighted composite lies in [0,10]. -/
theorem composite_convex_bound :
    ∀ w s : Dimension → ℚ,
      (∀ d, 0 ≤ w d) → weightSum w = 1 → scoresInRange s →
      0 ≤ compositeScore w s ∧ compositeScore w s ≤ 10 := by
  intro w s hw hsum hs
  have hn := hs Dimension.novelty
  have hf := hs Dimension.feasibility
  have hsi := hs Dimension.significance
  have hc := hs Dimension.clarity
  have hr := hs Dimension.relevance
  have wn := hw Dimension.novelty
  have wf := hw Dimension.feasibility
  have wsi := hw Dimension.significance
  have wc := hw Dimension.clarity
  have wr := hw Dimension.relevance
  unfold weightSum at hsum
  unfold compositeScore
  constructor
  · have p1 := mul_nonneg hn.1 wn
    have p2 := mul_nonneg hf.1 wf
    have p3 := mul_nonneg hsi.1 wsi
    have p4 := mul_nonneg hc.1 wc
    have p5 := mul_nonneg hr.1 wr
    linarith
  · have q1 := mul_le_mul_of_nonneg_right hn.2 wn
    have q2 := mul_le_mul_of_nonneg_right hf.2 wf
    have q3 := mul_le_mul_of_nonneg_right hsi.2 wsi
    have q4 := mul_le_mul_of_nonneg_right hc.2 wc
    have q5 := mul_le_mul_of_nonneg_right hr.2 wr
    linarith

/-- Witness for C8 (amended): the code's fixed `EVAL_WEIGHTS` with the
spec §8 scenario scores — the composite (8.7) lies in [0,10]. -/
theorem composite_convex_bound_witness :
    0 ≤ compositeScore EVAL_WEIGHTS specScenarioScores ∧
    compositeScore EVAL_WEIGHTS specScenarioScores ≤ 10 :=
  composite_convex_bound EVAL_WEIGHTS specScenarioScores
    (fun d => by cases d <;> norm_num [EVAL_WEIGHTS])
    (by norm_num [weightSum, EVAL_WEIGHTS])
    (fun d => by cases d <;> norm_num [specScenarioScores])

/-- Python's `max(..., key=...)` fold keeps the first-seen maximal
element: the result sits at some index of `best :: xs`, every element's
key is at most the result's, and every element strictly before the
result's index has a strictly smaller key. -/
lemma foldl_best_spec (xs : List IdeaRecord) :
    ∀ best : IdeaRecord,
      ∃ i r, (best :: xs)[i]? = some r ∧
        xs.foldl (fun b y => if b.final_score < y.final_score then y else b) best = r ∧
        (∀ (j : Nat) (s : IdeaRecord), (best :: xs)[j]? = some s → s.final_score ≤ r.final_score) ∧
        (∀ (j : Nat) (s : IdeaRecord), j < i → (best :: xs)[j]? = some s → s.final_score < r.final_score) := by
  induction xs with
  | nil =>
    intro best
    refine ⟨0, best, rfl, rfl, ?_, ?_⟩
    · intro j s hj
      cases j with
      | zero =>
        simp only [List.getElem?_cons_zero, Option.some.injEq] at hj
        rw [← hj]
      | succ j => simp at hj
    · intro j s hj _
      exact absurd hj (Nat.not_lt_zero j)
  | cons y ys ih =>
    intro best
    by_cases hby : best.final_score < y.final_score
    · obtain ⟨i, r, hget, hfold, hdom, hstrict⟩ := ih y
      have hyr : y.final_score ≤ r.final_score := hdom 0 y (by simp)
      refine ⟨i + 1, r, by simpa using hget, ?_, ?_, ?_⟩
      · simpa [List.foldl_cons, if_pos hby] using hfold
      · intro j s hj
        cases j with
        | zero =>
          simp only [List.getElem?_cons_zero, Option.some.injEq] at hj
          rw [← hj]
          exact le_of_lt (lt_of_lt_of_le hby hyr)
        | succ j => exact hdom j s (by simpa using hj)
      · intro j s hji hj
        cases j with
        | zero =>
          simp only [List.getElem?_cons_zero, Option.some.injEq] at hj
          rw [← hj]
          exact lt_of_lt_of_le hby hyr
        | succ j =>
          exact hstrict j s (Nat.lt_of_succ_lt_succ hji) (by simpa using hj)
    · obtain ⟨i, r, hget, hfold, hdom, hstrict⟩ := ih best
      have hyb : y.final_score ≤ best.final_score := not_lt.mp hby
      have hbr : best.final_score ≤ r.final_score := hdom 0 best (by simp)
      cases i with
      | zero =>
        simp only [List.getElem?_cons_zero, Option.some.injEq] at hget
        refine ⟨0, r, by simp [← hget], ?_, ?_, ?_⟩
        · simpa [List.foldl_cons, if_neg hby] using hfold
        · intro j s hj
          cases j with
          | zero =>
            simp only [List.getElem?_cons_zero, Option.some.injEq] at hj
            rw [← hj, ← hget]
          | succ j =>
            cases j with
            | zero =>
              simp only [List.getElem?_cons_succ, List.getElem?_cons_zero,
                Option.some.injEq] at hj
              rw [← hj]
              exact le_trans hyb hbr
            | succ j => exact hdom (j + 1) s (by simpa using hj)
        · intro j s hj _
          exact absurd hj (Nat.not_lt_zero j)
      | succ k =>
        refine ⟨k + 2, r, by simpa using hget, ?_, ?_, ?_⟩
        · simpa [List.foldl_cons, if_neg hby] using hfold
        · intro j s hj
          cases j with
          | zero =>
            simp only [List.getElem?_cons_zero, Option.some.injEq] at hj
            rw [← hj]
            exact hbr
          | succ j =>
            cases j with
            | zero =>
              simp only [List.getElem?_cons_succ, List.getElem?_cons_zero,
                Option.some.injEq] at hj
              rw [← hj]
              exact le_trans hyb hbr
            | succ j => exact hdom (j + 1) s (by simpa using hj)
        · intro j s hji hj
          have hbltr : best.final_score < r.final_score :=
            hstrict 0 best (Nat.succ_pos k) (by simp)
          cases j with
          | zero =>
            simp only [List.getElem?_cons_zero, Option.some.injEq] at hj
            rw [← hj]
            exact hbltr
          | succ j =>
            cases j with
            | zero =>
              simp only [List.getElem?_cons_succ, List.getElem?_cons_zero,
                Option.some.injEq] at hj
              rw [← hj]
              exact lt_of_le_of_lt hyb hbltr
            | succ j =>
              exact hstrict (j + 1) s (by omega) (by simpa using hj)

/-- C7: best-result selection is argmax over final composite score with
ties broken by earliest index — the selected record sits at an index
whose score dominates every record and strictly exceeds every earlier
record — the empty list selects `none`, and over final scores
[6.1, 8.9, 8.9] the record at index 1 is selected. -/
theorem select_best_idea_first_argmax :
    select_best_idea [] = none ∧
    (∀ l : List IdeaRecord, l ≠ [] →
      ∃ i r, l[i]? = some r ∧ select_best_idea l = some r ∧
        (∀ (j : Nat) (s : IdeaRecord), l[j]? = some s → s.final_score ≤ r.final_score) ∧
        (∀ (j : Nat) (s : IdeaRecord), j < i → l[j]? = some s → s.final_score < r.final_score)) ∧
    select_best_idea tieRecords = tieRecords[1]? := by
  refine ⟨rfl, ?_, ?_⟩
  · intro l hl
    match l with
    | [] => exact absurd rfl hl
    | x :: xs =>
      obtain ⟨i, r, hget, hfold, hdom, hstrict⟩ := foldl_best_spec xs x
      exact ⟨i, r, hget, by simpa [select_best_idea] using hfold, hdom, hstrict⟩
  · show some _ = _
    norm_num [tieRecords, recordWithScore]

/-- Witness for C7: applying the selection characterisation to the
spec §8 tie scenario [6.1, 8.9, 8.9]. -/
theorem select_best_idea_first_argmax_witness :
    ∃ i r, tieRecords[i]? = some r ∧ select_best_idea tieRecords = some r ∧
      (∀ (j : Nat) (s : IdeaRecord), tieRecords[j]? = some s → s.final_score ≤ r.final_score) ∧
      (∀ (j : Nat) (s : IdeaRecord), j < i → tieRecords[j]? = some s → s.final_score < r.final_score) :=
  select_best_idea_first_argmax.2.1 tieRecords (by simp [tieRecords])

/-- One-step unfolding of the loop (stated so it can be rewritten
exactly once). -/
lemma processRounds_step
    (evaluator : Nat → String → Except ProviderError EvaluationResult)
    (refiner : String → String → Except ProviderError String)
    (maxRounds roundsLeft roundNum : Nat) (current : String) (record : IdeaRecord) :
    processRounds evaluator refiner maxRounds (roundsLeft + 1) roundNum current record =
      match evaluator roundNum current with
      | .error e => .error e
      | .ok evalResult =>
        let record2 := { record with
          evaluations := record.evaluations ++ [mkEvalEntry roundNum evalResult]
          final_score := evalResult.weighted_score
          rounds_used := roundNum }
        if evalResult.passes_threshold then .ok (current, record2)
        else if roundNum < maxRounds then
          match refiner current evalResult.raw_feedback with
          | .error e => .error e
          | .ok refined =>
            processRounds evaluator refiner maxRounds roundsLeft (roundNum + 1) refined
              { record2 with refinements := record2.refinements ++ [⟨roundNum, refined⟩] }
        else .ok (current, record2) := rfl

/-- Loop invariant for an always-failing evaluator: with `k + 1` rounds
of fuel left at round `roundNum` (so `roundNum + k = maxRounds`), the
loop runs all remaining rounds, appends one evaluation entry per round
and one refinement entry per round except the last, ends at round
`maxRounds`, and the final text is the `k`-fold refinement of the
current text. -/
lemma processRounds_allFail
    (ev : Nat → String → EvaluationResult) (rf : String → String → String)
    (hfail : ∀ r t, (ev r t).passes_threshold = false) (maxRounds : Nat) :
    ∀ (k roundNum : Nat) (current : String) (record : IdeaRecord),
      roundNum + k = maxRounds →
      ∃ c' rec2,
        processRounds (pureEvaluator ev) (pureRefiner rf) maxRounds
          (k + 1) roundNum current record = .ok (c', rec2) ∧
        c' = refinedText ev rf current roundNum k ∧
        rec2.evaluations.length = record.evaluations.length + (k + 1) ∧
        rec2.refinements.length = record.refinements.length + k ∧
        rec2.rounds_used = maxRounds ∧
        rec2.final_score = (ev maxRounds c').weighted_score := by
  intro k
  induction k with
  | zero =>
    intro roundNum current record hR
    simp only [Nat.add_zero] at hR
    subst hR
    refine ⟨current,
      { record with
        evaluations := record.evaluations ++ [mkEvalEntry roundNum (ev roundNum current)]
        final_score := (ev roundNum current).weighted_score
        rounds_used := roundNum }, ?_, rfl, ?_, ?_, ?_, ?_⟩
    · rw [processRounds_step]
      dsimp only [pureEvaluator]
      rw [hfail roundNum current]
      simp only [Bool.false_eq_true, if_false, lt_irrefl]
    · simp
    · simp
    · simp
    · simp
  | succ k ih =>
    intro roundNum current record hR
    have hlt : roundNum < maxRounds := by omega
    obtain ⟨c', rec2, hrun, hc, he, hrf, hu, hsc⟩ :=
      ih (roundNum + 1) (rf current (ev roundNum current).raw_feedback)
        { record with
          evaluations :=
            record.evaluations ++ [mkEvalEntry roundNum (ev roundNum current)]
          final_score := (ev roundNum current).weighted_score
          rounds_used := roundNum
          refinements :=
            record.refinements ++
              [⟨roundNum, rf current (ev roundNum current).raw_feedback⟩] }
        (by omega)
    refine ⟨c', rec2, ?_, ?_, ?_, ?_, hu, hsc⟩
    · rw [processRounds_step]
      dsimp only [pureEvaluator, pureRefiner]
      rw [hfail roundNum current]
      simp only [Bool.false_eq_true, if_false, if_pos hlt]
      exact hrun
    · rw [hc]
      rfl
    · rw [he]
      simp only [List.length_append, List.length_singleton]
      omega
    · rw [hrf]
      simp only [List.length_append, List.length_singleton]
      omega

/-- C4: for every round budget R ≥ 1, running the single-idea lifecycle
with an evaluator whose verdict always fails yields a record with
exactly R evaluation entries and R−1 refinement entries; the loop is
exhausted at round R (rounds_used = R), the final current text is the
(R−1)-fold refinement of the original, the final score is the
round-R verdict's composite, and that last verdict fails — no
refinement follows the final round. -/
theorem lifecycle_exhausted_on_always_fail :
    ∀ (ev : Nat → String → EvaluationResult) (rf : String → String → String)
      (idea : String) (R : Nat), 1 ≤ R →
      (∀ r t, (ev r t).passes_threshold = false) →
      ∃ record,
        process_single_idea (pureEvaluator ev) (pureRefiner rf) idea R = .ok record ∧
        record.evaluations.length = R ∧
        record.refinements.length = R - 1 ∧
        record.rounds_used = R ∧
        record.current = refinedText ev rf idea 1 (R - 1) ∧
        record.final_score = (ev R record.current).weighted_score ∧
        (ev R record.current).passes_threshold = false := by
  intro ev rf idea R hR hfail
  obtain ⟨k, rfl⟩ : ∃ k, R = k + 1 := ⟨R - 1, by omega⟩
  obtain ⟨c', rec2, hrun, hc, he, hrf, hu, hsc⟩ :=
    processRounds_allFail ev rf hfail (k + 1) k 1 idea
      { original := idea, current := idea, evaluations := []
        refinements := [], final_score := 0, rounds_used := 0 } (by omega)
  refine ⟨{ rec2 with current := c' }, ?_, ?_, ?_, ?_, ?_, ?_, ?_⟩
  · unfold process_single_idea
    rw [hrun]
  · simpa using he
  · simpa using hrf
  · exact hu
  · simpa using hc
  · simpa using hsc
  · exact hfail (k + 1) c'

/-- Witness for C4: the always-failing stub with R = 3 gives 3
evaluation entries, 2 refinement entries, rounds_used 3. -/
theorem lifecycle_exhausted_on_always_fail_witness :
    (process_single_idea (pureEvaluator alwaysFailEv) (pureRefiner markRefiner)
        ("seed") 3).map
      (fun record =>
        (record.evaluations.length, record.refinements.length, record.rounds_used)) =
      .ok (3, 2, 3) := by
  have hfail : ∀ (r : Nat) (t : String), (alwaysFailEv r t).passes_threshold = false := by
    intro r t
    show (({} : EvaluationResult)).passes_threshold = false
    decide
  obtain ⟨record, h1, h2, h3, h4, _, _, _⟩ :=
    lifecycle_exhausted_on_always_fail alwaysFailEv markRefiner ("seed") 3
      (by norm_num) hfail
  rw [h1]
  simp [Except.map, h2, h3, h4]

/-- C5: with max_rounds = 3 and an evaluator that fails the original
text on round 1 and passes the refined text on round 2, the lifecycle
produces exactly 2 evaluation entries and 1 refinement entry, stops at
round 2 (accepted immediately on the passing verdict — round 3 never
runs), and the record's final current text is the round-1 refinement
output. -/
theorem lifecycle_accept_on_round_two :
    ∀ (ev : Nat → String → EvaluationResult) (rf : String → String → String)
      (idea : String),
      (ev 1 idea).passes_threshold = false →
      (ev 2 (rf idea (ev 1 idea).raw_feedback)).passes_threshold = true →
      ∃ record,
        process_single_idea (pureEvaluator ev) (pureRefiner rf) idea 3 = .ok record ∧
        record.evaluations.length = 2 ∧
        record.refinements.length = 1 ∧
        record.rounds_used = 2 ∧
        record.current = rf idea (ev 1 idea).raw_feedback ∧
        record.refinements = [⟨1, rf idea (ev 1 idea).raw_feedback⟩] ∧
        record.final_score = (ev 2 record.current).weighted_score := by
  intro ev rf idea h1 h2
  have heq : process_single_idea (pureEvaluator ev) (pureRefiner rf) idea 3 =
      .ok { original := idea
            current := rf idea (ev 1 idea).raw_feedback
            evaluations := [mkEvalEntry 1 (ev 1 idea),
              mkEvalEntry 2 (ev 2 (rf idea (ev 1 idea).raw_feedback))]
            refinements := [⟨1, rf idea (ev 1 idea).raw_feedback⟩]
            final_score := (ev 2 (rf idea (ev 1 idea).raw_feedback)).weighted_score
            rounds_used := 2 } := by
    unfold process_single_idea
    rw [show (3 : Nat) = 2 + 1 from rfl, processRounds_step]
    dsimp only [pureEvaluator, pureRefiner]
    rw [h1]
    rw [show (2 : Nat) = 1 + 1 from rfl]
    rw [processRounds_step]
    dsimp only [pureEvaluator, pureRefiner]
    rw [h2]
    rfl
  exact ⟨_, heq, rfl, rfl, rfl, rfl, rfl, rfl⟩

/-- Witness for C5: the fails-then-passes stub at max_rounds 3 gives 2
evaluation entries, 1 refinement entry, and final text equal to the
round-1 refinement output of the seed. -/
theorem lifecycle_accept_on_round_two_witness :
    (process_single_idea (pureEvaluator passOnRound2Ev) (pureRefiner markRefiner)
        ("seed") 3).map
      (fun record =>
        (record.evaluations.length, record.refinements.length, record.current)) =
      .ok (2, 1, "seed*") := by
  obtain ⟨record, h1, h2, h3, _, h5, _, _⟩ :=
    lifecycle_accept_on_round_two passOnRound2Ev markRefiner ("seed")
      (by show (({} : EvaluationResult)).passes_threshold = false; decide)
      (by show resultAtThresholds.passes_threshold = true
          rw [passes_threshold_true_iff]
          refine ⟨by norm_num [resultAtThresholds, EVALUATION_THRESHOLD], ?_⟩
          rw [failed_dimensions_eq_nil_iff]
          intro d
          cases d <;>
            norm_num [resultAtThresholds, EvaluationResult.dimScore,
              EVAL_DIMENSION_THRESHOLDS])
  rw [h1]
  simp only [Except.map, h2, h3, h5]
  rfl

/-- Counterexample for C2: two candidates, the first one's model call
raises a provider error, the second one's evaluator would pass — the
batch loop aborts with the error instead of continuing with the sibling
and recording an error outcome (the result is the propagated exception,
not a list of records). -/
theorem batch_aborts_on_provider_error :
    processBatch evFailsFirstCandidate rfNeverFails 3 0
        [("idea-A"), ("idea-B")] = .error providerFailure := rfl

/-- C2 amended: a provider error raised while processing one candidate
propagates out of the batch loop uncaught (there is no per-candidate
isolation): the run aborts with that error, the remaining sibling
candidates are never processed, and no terminal error record is
produced. -/
theorem provider_error_aborts_whole_batch :
    ∀ (evaluators : Nat → Nat → String → Except ProviderError EvaluationResult)
      (refiners : Nat → String → String → Except ProviderError String)
      (maxRounds idx : Nat) (idea : String) (rest : List String) (e : ProviderError),
      process_single_idea (evaluators idx) (refiners idx) idea maxRounds = .error e →
      processBatch evaluators refiners maxRounds idx (idea :: rest) = .error e := by
  intro evaluators refiners maxRounds idx idea rest e h
  unfold processBatch
  rw [h]

/-- Witness for C2 (amended): the concrete failing batch — candidate
0's provider error aborts the whole two-candidate batch. -/
theorem provider_error_aborts_whole_batch_witness :
    processBatch evFailsFirstCandidate rfNeverFails 3 0
        [("idea-A"), ("idea-B")] = .error providerFailure :=
  provider_error_aborts_whole_batch evFailsFirstCandidate rfNeverFails 3 0
    ("idea-A") [("idea-B")] providerFailure rfl

/-- Counterexample for C3: running the lifecycle with the non-positive
round budget 0 raises nothing — it returns a normal record with empty
history instead of a ConfigurationError (no configuration validation
exists anywhere in the code). -/
theorem no_configuration_error_on_zero_rounds :
    process_single_idea (pureEvaluator alwaysFailEv) (pureRefiner markRefiner)
        ("seed") 0 =
      .ok { original := "seed", current := "seed", evaluations := []
            refinements := [], final_score := 0, rounds_used := 0 } := rfl

/-- C3 amended: the code performs no configuration validation at all —
the fixed weights of `src/config.py` do sum to 1.0, but nothing checks
them, and non-positive budgets are not rejected: max_rounds = 0 yields
a record with zero evaluations and zero refinements rather than an
error, and an empty candidate list yields an empty record list rather
than an error. -/
theorem no_eager_configuration_validation :
    weightSum EVAL_WEIGHTS = 1 ∧
    (∀ (evaluator : Nat → String → Except ProviderError EvaluationResult)
       (refiner : String → String → Except ProviderError String) (idea : String),
      process_single_idea evaluator refiner idea 0 =
        .ok { original := idea, current := idea, evaluations := []
              refinements := [], final_score := 0, rounds_used := 0 }) ∧
    (∀ (evaluators : Nat → Nat → String → Except ProviderError EvaluationResult)
       (refiners : Nat → String → String → Except ProviderError String)
       (maxRounds idx : Nat),
      processBatch evaluators refiners maxRounds idx [] = .ok []) := by
  refine ⟨by norm_num [weightSum, EVAL_WEIGHTS], ?_, ?_⟩
  · intro evaluator refiner idea
    rfl
  · intro evaluators refiners maxRounds idx
    rfl

end OpenFARS
